import Mathlib

/-!
Verification of the recipe CRUD service (`src/index.ts`, `src/db/schema.ts`).

The service exposes three JSON operations over a single SQLite (Cloudflare D1)
table `recipes`, plus an HTML form endpoint `/add-recipe`:

* `GET /api/recipes`      — select all rows (`getRecipes` handler);
* `GET /api/recipes/{id}` — validate the `id` path param with `z.coerce.number()`
  and select the first row whose `id` column equals it (`getRecipe` handler);
* `POST /api/recipe`      — validate the JSON body with `NewRecipeSchema`
  (`z.object ...` with `name : z.string()` and `ingredience : z.string()`) and
  insert one row, returning it (`createRecipe` handler);
* `POST /add-recipe`      — read the form body and insert with no schema
  validation at all.

We embed the table, the zod validations and the four handlers as pure Lean
functions.  Storage state is a list of rows; timestamps (the SQLite
`CURRENT_TIMESTAMP` default) enter as an explicit `now : String` parameter;
the SQLite rowid assignment for `integer primary key` (one more than the
largest id in use) is `nextId`.  JavaScript numbers produced by
`z.coerce.number()` are embedded exactly as sign-exact rationals
(an integer numerator over a power-of-ten denominator), which agrees with the
IEEE double on every comparison the code performs against integer row ids.
-/

/-- A persisted row of the `recipes` table (`src/db/schema.ts`): all five
columns are `notNull`; `createdAt` and `updatedAt` are text timestamps
defaulted by storage. -/
structure Recipe where
  id : Nat
  name : String
  ingredience : String
  createdAt : String
  updatedAt : String
deriving DecidableEq, Repr

/-- The state of the `recipes` table: its rows in insertion (rowid) order. -/
structure RecipesTable where
  rows : List Recipe
deriving DecidableEq, Repr

/-- Failure outcomes observable from the embedded handlers:
`validation` is a zod rejection before any storage access;
`notNullViolation` is the storage-level error SQLite raises when an insert
omits a `notNull` column without a default. -/
inductive ApiError where
  | validation
  | notNullViolation
deriving DecidableEq, Repr

/-- The JSON body of `POST /api/recipe` as received: each field is `none`
when the key is absent from the JSON object. -/
structure NewRecipeInput where
  name : Option String
  ingredience : Option String
deriving DecidableEq, Repr

/-- A body accepted by `NewRecipeSchema`. -/
structure ParsedNewRecipe where
  name : String
  ingredience : String
deriving DecidableEq, Repr

/-- `NewRecipeSchema` (`index.ts` lines 90–99): `z.object` with
`name : z.string()` and `ingredience : z.string()`.  A missing key fails
(zod fields are required by default); any present string — including the
empty string — passes, since neither field carries `.min(1)` or `.nonempty()`. -/
def validateNewRecipe (input : NewRecipeInput) : Except ApiError ParsedNewRecipe :=
  match input.name, input.ingredience with
  | some n, some i => .ok ⟨n, i⟩
  | _, _ => .error .validation

/-- The largest id present in the table (0 when empty). -/
def maxId (st : RecipesTable) : Nat :=
  st.rows.foldr (fun r m => max r.id m) 0

/-- SQLite assigns an omitted `integer primary key` one more than the largest
rowid in use. -/
def nextId (st : RecipesTable) : Nat :=
  maxId st + 1

/-- `db.insert(schema.recipes).values({name, ingredience}).returning()`:
storage assigns the id and defaults both timestamps to the current time, and
the inserted row is returned in full. -/
def insertRecipe (st : RecipesTable) (name ingredience now : String) :
    Recipe × RecipesTable :=
  let r : Recipe := ⟨nextId st, name, ingredience, now, now⟩
  (r, ⟨st.rows ++ [r]⟩)

/-! ### JavaScript string-to-number coercion (`z.coerce.number()`)

`z.coerce.number()` applies `Number(input)` and then `z.number()`, which
rejects `NaN`.  We embed `Number` on strings: trim whitespace, empty → `0`,
else a string numeric literal — an optionally signed decimal literal with
optional fraction and exponent, a signed `Infinity`, or an unsigned
hex/octal/binary literal.  Anything else is `NaN`, embedded as `none`.
Finite values are kept as exact fractions `num / den` with `den` a positive
power of ten, so equality against an integer id is exact. -/

/-- An exact finite JavaScript number: `num / den`. -/
structure Frac where
  num : Int
  den : Nat
deriving DecidableEq, Repr

/-- A JavaScript number that is not `NaN`. -/
inductive JsNum where
  | fin (f : Frac)
  | posInf
  | negInf
deriving DecidableEq, Repr

def isJsWhitespace (c : Char) : Bool :=
  c = ' ' || c = '\t' || c = '\n' || c = '\r' || c.toNat = 11 || c.toNat = 12

def natOfDigits (ds : List Char) : Nat :=
  ds.foldl (fun n c => 10 * n + (c.toNat - 48)) 0

def takeDigits (cs : List Char) : List Char × List Char :=
  (cs.takeWhile Char.isDigit, cs.dropWhile Char.isDigit)

def digitValue (c : Char) : Nat :=
  if c.isDigit then c.toNat - 48
  else if 'a' ≤ c && c ≤ 'f' then c.toNat - 87
  else if 'A' ≤ c && c ≤ 'F' then c.toNat - 55
  else 99

/-- Digits of a hex/octal/binary literal after the `0x`/`0o`/`0b` prefix. -/
def parseRadixNat (radix : Nat) (ds : List Char) : Option Nat :=
  if ds ≠ [] && ds.all (fun c => digitValue c < radix) then
    some (ds.foldl (fun n c => radix * n + digitValue c) 0)
  else none

/-- The exponent suffix of a decimal literal: absent (`some 0`), or
`e`/`E`, an optional sign, and at least one digit. -/
def parseExpPart : List Char → Option Int
  | [] => some 0
  | c :: rest =>
    if c = 'e' || c = 'E' then
      match rest with
      | '+' :: ds =>
        if ds ≠ [] && ds.all Char.isDigit then some (natOfDigits ds) else none
      | '-' :: ds =>
        if ds ≠ [] && ds.all Char.isDigit then some (-(natOfDigits ds : Int)) else none
      | ds =>
        if ds ≠ [] && ds.all Char.isDigit then some (natOfDigits ds) else none
    else none

/-- Scale `n / d` by `10 ^ e`. -/
def applyExp (n d : Nat) (e : Int) : Frac :=
  if 0 ≤ e then ⟨(n : Int) * ((10 ^ e.toNat : Nat) : Int), d⟩
  else ⟨(n : Int), d * 10 ^ (-e).toNat⟩

/-- An unsigned decimal literal: digits, an optional `.` with further digits
(at least one digit in total), and an optional exponent. -/
def parseUnsignedDec (cs : List Char) : Option Frac :=
  let (ip, rest1) := takeDigits cs
  match rest1 with
  | '.' :: rest2 =>
    let (fp, rest3) := takeDigits rest2
    if ip.isEmpty && fp.isEmpty then none
    else
      (parseExpPart rest3).map fun e =>
        applyExp (natOfDigits ip * 10 ^ fp.length + natOfDigits fp) (10 ^ fp.length) e
  | _ =>
    if ip.isEmpty then none
    else (parseExpPart rest1).map fun e => applyExp (natOfDigits ip) 1 e

def negFrac (f : Frac) : Frac :=
  ⟨-f.num, f.den⟩

/-- An optionally signed decimal literal or `Infinity`. -/
def parseSignedPart (cs : List Char) (neg : Bool) : Option JsNum :=
  if cs = "Infinity".toList then some (if neg then .negInf else .posInf)
  else (parseUnsignedDec cs).map fun f => .fin (if neg then negFrac f else f)

/-- `Number` applied to a string: `none` is `NaN`. -/
def jsStringToNumber (s : String) : Option JsNum :=
  let cs := s.toList.dropWhile isJsWhitespace
  let cs := (cs.reverse.dropWhile isJsWhitespace).reverse
  match cs with
  | [] => some (.fin ⟨0, 1⟩)
  | '0' :: c :: rest =>
    if c = 'x' || c = 'X' then (parseRadixNat 16 rest).map fun n => .fin ⟨n, 1⟩
    else if c = 'o' || c = 'O' then (parseRadixNat 8 rest).map fun n => .fin ⟨n, 1⟩
    else if c = 'b' || c = 'B' then (parseRadixNat 2 rest).map fun n => .fin ⟨n, 1⟩
    else parseSignedPart ('0' :: c :: rest) false
  | '+' :: rest => parseSignedPart rest false
  | '-' :: rest => parseSignedPart rest true
  | _ => parseSignedPart cs false

/-- `z.coerce.number()` on the `id` path parameter: `Number(id)`, with `NaN`
rejected by `z.number()`.  No `.int()` or `.positive()` refinement is present. -/
def zCoerceNumber (s : String) : Option JsNum :=
  jsStringToNumber s

/-- SQLite numeric equality between the coerced id and an integer row id:
true exactly when the values are numerically equal (a zero denominator —
which the parser never produces — or an infinity equals no integer). -/
def jsNumEqId (q : JsNum) (id : Nat) : Bool :=
  match q with
  | .fin f => f.den ≠ 0 && f.num = (id : Int) * (f.den : Int)
  | _ => false

/-! ### The four handlers -/

/-- `getRecipes` handler (`index.ts` lines 384–388): select all rows. -/
def getRecipes (st : RecipesTable) : Except ApiError (List Recipe) :=
  .ok st.rows

/-- The select of the `getRecipe` handler:
`db.select().from(recipes).where(eq(recipes.id, id))` destructured to its
first row (`undefined`, i.e. `none`, when no row matches). -/
def lookupRecipe (st : RecipesTable) (q : JsNum) : Option Recipe :=
  st.rows.find? (fun row => jsNumEqId q row.id)

/-- `getRecipe` route (`index.ts` lines 71–88 and 389–397): the framework
validates the `id` param with `z.coerce.number()` before the handler runs;
the handler then selects by id, returning the first match or `none`. -/
def getRecipeById (st : RecipesTable) (idStr : String) :
    Except ApiError (Option Recipe) :=
  match zCoerceNumber idStr with
  | none => .error .validation
  | some q => .ok (lookupRecipe st q)

/-- `createRecipe` route (`index.ts` lines 101–125 and 398–411): the framework
validates the JSON body against `NewRecipeSchema` before the handler runs;
on success the handler inserts one row and returns it.  The table after the
call is returned alongside the result: on a validation error it is untouched. -/
def createRecipe (input : NewRecipeInput) (st : RecipesTable) (now : String) :
    Except ApiError Recipe × RecipesTable :=
  match validateNewRecipe input with
  | .error e => (.error e, st)
  | .ok body =>
    (.ok (insertRecipe st body.name body.ingredience now).1,
     (insertRecipe st body.name body.ingredience now).2)

/-- `POST /add-recipe` handler (`index.ts` lines 293–303): `parseBody`, then
insert the two fields with no schema validation.  A missing form field is
`undefined`, which drizzle omits from the insert, so SQLite raises a
`NOT NULL` violation at the storage layer; any present string — empty
included — is inserted. -/
def addRecipe (name ingredience : Option String) (st : RecipesTable)
    (now : String) : Except ApiError Unit × RecipesTable :=
  match name, ingredience with
  | some n, some i => (.ok (), (insertRecipe st n i now).2)
  | _, _ => (.error .notNullViolation, st)

/-! ### The declared response schema `RecipeSchema`

`RecipeSchema` (`index.ts` lines 46–58) declares the response shape of all
three JSON routes: an object with `id : z.number()`, `name : z.string()` and
`ingredience : z.string().email()` — and no `createdAt` or `updatedAt` key.
We embed zod's email validation (the zod v3 email pattern: a local part of
letters, digits, `_`, `+`, `-`, apostrophes and non-adjacent interior dots,
one `@`, one or more alphanumeric-with-hyphens labels each followed by a dot,
and an alphabetic top-level domain of length at least two). -/

def isApostrophe (c : Char) : Bool :=
  c.toNat = 39

def isEmailLocalChar (c : Char) : Bool :=
  c.isAlpha || c.isDigit || c = '_' || c = '+' || c = '-' || c = '.' || isApostrophe c

def isEmailLocalLastChar (c : Char) : Bool :=
  c.isAlpha || c.isDigit || c = '_' || c = '+' || c = '-'

/-- No two adjacent dots anywhere in the candidate email. -/
def noDoubleDot : List Char → Bool
  | '.' :: '.' :: _ => false
  | _ :: rest => noDoubleDot rest
  | [] => true

def splitOnChar (sep : Char) : List Char → List (List Char)
  | [] => [[]]
  | c :: rest =>
    let ps := splitOnChar sep rest
    if c = sep then [] :: ps
    else
      match ps with
      | [] => [[c]]
      | p :: ps2 => (c :: p) :: ps2

/-- The part before the `@`: nonempty, not starting with a dot, every
character from the local class, and the last character from the narrower
final class (no dot, no apostrophe). -/
def validLocalPart (cs : List Char) : Bool :=
  match cs with
  | [] => false
  | c :: _ =>
    !(c = '.') && cs.all isEmailLocalChar &&
      (match cs.getLast? with
       | some l => isEmailLocalLastChar l
       | none => false)

/-- A domain label before a dot: alphanumeric first character, then
alphanumerics and hyphens. -/
def validDomainLabel (cs : List Char) : Bool :=
  match cs with
  | [] => false
  | c :: rest => (c.isAlpha || c.isDigit) && rest.all (fun d => d.isAlpha || d.isDigit || d = '-')

/-- The top-level domain: at least two characters, all letters. -/
def validTld (cs : List Char) : Bool :=
  decide (cs.length ≥ 2) && cs.all Char.isAlpha

/-- The part after the `@`: at least one label, a dot, and a TLD. -/
def validDomainPart (cs : List Char) : Bool :=
  match (splitOnChar '.' cs).reverse with
  | [] => false
  | tld :: labelsRev => !labelsRev.isEmpty && labelsRev.all validDomainLabel && validTld tld

/-- `z.string().email()` on the `ingredience` field of `RecipeSchema`. -/
def zodEmailCheck (s : String) : Bool :=
  let cs := s.toList
  noDoubleDot cs &&
    (match splitOnChar '@' cs with
     | [locPart, domPart] => validLocalPart locPart && validDomainPart domPart
     | _ => false)

/-- The keys `RecipeSchema` declares for a recipe in API responses. -/
def recipeSchemaFields : List String :=
  ["id", "name", "ingredience"]

/-- The columns of a persisted row (`src/db/schema.ts`). -/
def recipeRecordFields : List String :=
  ["id", "name", "ingredience", "createdAt", "updatedAt"]

/-- Whether a persisted row satisfies the field constraints `RecipeSchema`
declares on it: `id` and `name` are unconstrained number/string, while
`ingredience` must pass the email format check. -/
def recipeSchemaAccepts (r : Recipe) : Bool :=
  zodEmailCheck r.ingredience

/-! ### Shared lemmas about storage -/

theorem id_le_foldr_max (rows : List Recipe) (r : Recipe) (h : r ∈ rows) :
    r.id ≤ rows.foldr (fun x m => max x.id m) 0 := by
  induction rows with
  | nil => cases h
  | cons a as ih =>
    rcases List.mem_cons.mp h with h1 | h2
    · subst h1; exact le_max_left _ _
    · exact le_trans (ih h2) (le_max_right _ _)

theorem mem_id_le_maxId (st : RecipesTable) (r : Recipe) (h : r ∈ st.rows) :
    r.id ≤ maxId st :=
  id_le_foldr_max st.rows r h

theorem mem_id_lt_nextId (st : RecipesTable) (r : Recipe) (h : r ∈ st.rows) :
    r.id < nextId st :=
  Nat.lt_succ_of_le (mem_id_le_maxId st r h)

theorem find?_append_of_forall_false {α : Type} (p : α → Bool) (l1 l2 : List α)
    (h : ∀ x ∈ l1, p x = false) : (l1 ++ l2).find? p = l2.find? p := by
  induction l1 with
  | nil => rfl
  | cons a as ih =>
    have ha : p a = false := h a (List.mem_cons_self a as)
    rw [List.cons_append, List.find?_cons_of_neg _ (by simp [ha])]
    exact ih fun x hx => h x (List.mem_cons_of_mem a hx)

theorem jsNumEqId_unique (q : JsNum) (a b : Nat) (ha : jsNumEqId q a = true)
    (hb : jsNumEqId q b = true) : a = b := by
  cases q with
  | fin f =>
    simp only [jsNumEqId, Bool.and_eq_true, decide_eq_true_eq] at ha hb
    obtain ⟨hden, hna⟩ := ha
    obtain ⟨_, hnb⟩ := hb
    have hd : (f.den : Int) ≠ 0 := by exact_mod_cast hden
    have hab : (a : Int) * (f.den : Int) = (b : Int) * (f.den : Int) := by
      rw [← hna, ← hnb]
    exact_mod_cast mul_right_cancel₀ hd hab
  | posInf => simp [jsNumEqId] at ha
  | negInf => simp [jsNumEqId] at ha

theorem lookup_insert_self (st : RecipesTable) (n i now : String) (q : JsNum)
    (hq : jsNumEqId q (insertRecipe st n i now).1.id = true) :
    lookupRecipe (insertRecipe st n i now).2 q =
      some (insertRecipe st n i now).1 := by
  unfold lookupRecipe
  have hold : ∀ x ∈ st.rows, jsNumEqId q x.id = false := by
    intro x hx
    by_contra hne
    have hx' : jsNumEqId q x.id = true := by
      cases hxx : jsNumEqId q x.id with
      | true => rfl
      | false => exact absurd hxx hne
    have : x.id = (insertRecipe st n i now).1.id := jsNumEqId_unique q _ _ hx' hq
    have hlt : x.id < nextId st := mem_id_lt_nextId st x hx
    rw [this] at hlt
    exact Nat.lt_irrefl _ hlt
  show ((st.rows ++ [(insertRecipe st n i now).1]).find? fun row => jsNumEqId q row.id) = _
  rw [find?_append_of_forall_false _ _ _ hold]
  simp [List.find?, hq]

/-! ### Claims -/

/-- Claim C1, counterexample: a `CreateRecipe` body whose `name` is the empty
string passes `NewRecipeSchema` (plain `z.string()` has no minimum length),
so the operation succeeds and a row is persisted — the claim's
`ValidationError`-and-unchanged-storage behavior does not hold for empty
strings. -/
theorem createRecipe_empty_string_persists :
    createRecipe ⟨some "", some "Soba, brouth, pork, eggs"⟩ ⟨[]⟩ "ts0" =
      (.ok ⟨1, "", "Soba, brouth, pork, eggs", "ts0", "ts0"⟩,
       ⟨[⟨1, "", "Soba, brouth, pork, eggs", "ts0", "ts0"⟩]⟩) := rfl

/-- Claim C1, amended: a `CreateRecipe` body in which `name` or `ingredience`
is missing fails with a `ValidationError` before any storage access and
leaves the table unchanged; a present field passes validation even when it is
the empty string, in which case the insert proceeds. -/
theorem createRecipe_missing_field_rejected :
    (∀ (input : NewRecipeInput) (st : RecipesTable) (now : String),
        input.name = none ∨ input.ingredience = none →
        createRecipe input st now = (.error .validation, st)) ∧
    (∀ (n i : String) (st : RecipesTable) (now : String),
        createRecipe ⟨some n, some i⟩ st now =
          (.ok (insertRecipe st n i now).1, (insertRecipe st n i now).2)) := by
  constructor
  · intro input st now h
    obtain ⟨nm, ing⟩ := input
    rcases h with h | h
    · cases nm with
      | none => cases ing <;> rfl
      | some v => exact absurd h (by simp)
    · cases ing with
      | none => cases nm <;> rfl
      | some v => exact absurd h (by simp)
  · intro n i st now
    rfl

/-- Claim C1, witness: applying the amended theorem at a body with a missing
`name` over the empty table. -/
theorem createRecipe_missing_field_rejected_witness :
    createRecipe ⟨none, some "Soba, brouth, pork, eggs"⟩ ⟨[]⟩ "ts0" =
      (.error .validation, ⟨[]⟩) :=
  createRecipe_missing_field_rejected.1 ⟨none, some "Soba, brouth, pork, eggs"⟩
    ⟨[]⟩ "ts0" (Or.inl rfl)

/-- Claim C2, counterexample: the `id` params schema is `z.coerce.number()`
with no `.int()` or `.positive()` refinement, so the ids `"0"`, `"-5"` and
`"2.5"` — none of them coercible to a positive integer — all pass validation
and the lookup proceeds (returning no match on the empty table) instead of
failing with a `ValidationError`. -/
theorem getRecipe_zero_id_passes :
    getRecipeById ⟨[]⟩ "0" = .ok none ∧
    getRecipeById ⟨[]⟩ "-5" = .ok none ∧
    getRecipeById ⟨[]⟩ "2.5" = .ok none :=
  ⟨rfl, rfl, rfl⟩

/-- Claim C2, amended: the `id` parameter is validated only for numeric
coercibility: a string that `Number` cannot coerce (`NaN`) fails with a
`ValidationError` and no lookup runs, while every coercible string — zero,
negative and non-integral values included — passes validation and the lookup
proceeds with the coerced value. -/
theorem getRecipe_id_coercion_behavior :
    (∀ (st : RecipesTable) (s : String), zCoerceNumber s = none →
        getRecipeById st s = .error .validation) ∧
    (∀ (st : RecipesTable) (s : String) (q : JsNum), zCoerceNumber s = some q →
        getRecipeById st s = .ok (lookupRecipe st q)) ∧
    (zCoerceNumber "abc" = none ∧ zCoerceNumber "0" = some (.fin ⟨0, 1⟩) ∧
      zCoerceNumber "-5" = some (.fin ⟨-5, 1⟩) ∧
      zCoerceNumber "2.5" = some (.fin ⟨25, 10⟩)) := by
  refine ⟨?_, ?_, by decide⟩
  · intro st s h
    unfold getRecipeById
    rw [h]
  · intro st s q h
    unfold getRecipeById
    rw [h]

/-- Claim C2, witness: the amended theorem applied to the non-numeric id
`"abc"` and the numeric id `"7"` over the empty table. -/
theorem getRecipe_id_coercion_behavior_witness :
    getRecipeById ⟨[]⟩ "abc" = .error .validation ∧
    getRecipeById ⟨[]⟩ "7" = .ok (lookupRecipe ⟨[]⟩ (.fin ⟨7, 1⟩)) :=
  ⟨getRecipe_id_coercion_behavior.1 ⟨[]⟩ "abc" (by decide),
   getRecipe_id_coercion_behavior.2.1 ⟨[]⟩ "7" (.fin ⟨7, 1⟩) (by decide)⟩

/-- Claim C3: an id that passes coercion but matches no persisted row yields
the success outcome `none` (the handler's `undefined` first row) — not a
`ValidationError` and not any other error. -/
theorem getRecipe_unassigned_id_not_found :
    ∀ (st : RecipesTable) (s : String) (q : JsNum),
      zCoerceNumber s = some q →
      (∀ r ∈ st.rows, jsNumEqId q r.id = false) →
      getRecipeById st s = .ok none := by
  intro st s q hq hall
  unfold getRecipeById
  rw [hq]
  have hnone : lookupRecipe st q = none := by
    unfold lookupRecipe
    apply List.find?_eq_none.mpr
    intro x hx
    simp [hall x hx]
  show Except.ok (lookupRecipe st q) = Except.ok none
  rw [hnone]

/-- Claim C3, witness: looking up the never-assigned id `"99"` in a table
holding only id 1. -/
theorem getRecipe_unassigned_id_not_found_witness :
    getRecipeById ⟨[⟨1, "Ramen", "Soba, brouth, pork, eggs", "ts0", "ts0"⟩]⟩ "99" =
      .ok none :=
  getRecipe_unassigned_id_not_found
    ⟨[⟨1, "Ramen", "Soba, brouth, pork, eggs", "ts0", "ts0"⟩]⟩ "99"
    (.fin ⟨99, 1⟩) (by decide) (by decide)

/-- Claim C4: for every valid body, a successful `CreateRecipe` followed by
`GetRecipeById` with any id string that coerces to the created record's id
returns exactly the record `CreateRecipe` returned. -/
theorem create_then_get_returns_created :
    ∀ (input : NewRecipeInput) (st : RecipesTable) (now : String)
      (r : Recipe) (s : String) (q : JsNum),
      (createRecipe input st now).1 = .ok r →
      zCoerceNumber s = some q →
      jsNumEqId q r.id = true →
      getRecipeById (createRecipe input st now).2 s = .ok (some r) := by
  intro input st now r s q h1 hq heq
  obtain ⟨nm, ing⟩ := input
  cases nm with
  | none => exact absurd h1 (by simp [createRecipe, validateNewRecipe])
  | some n =>
    cases ing with
    | none => exact absurd h1 (by simp [createRecipe, validateNewRecipe])
    | some i =>
      have hr : (insertRecipe st n i now).1 = r := by
        have h1' : (createRecipe ⟨some n, some i⟩ st now).1 =
            .ok (insertRecipe st n i now).1 := rfl
        rw [h1'] at h1
        exact Except.ok.inj h1
      have h2 : (createRecipe ⟨some n, some i⟩ st now).2 =
          (insertRecipe st n i now).2 := rfl
      rw [h2]
      unfold getRecipeById
      rw [hq]
      show Except.ok (lookupRecipe (insertRecipe st n i now).2 q) =
        Except.ok (some r)
      rw [lookup_insert_self st n i now q (by rw [hr]; exact heq)]
      rw [hr]

/-- Claim C4, witness: creating `("Ramen", "Soba, brouth, pork, eggs")` on the
empty table and fetching id `"1"` returns the created record. -/
theorem create_then_get_returns_created_witness :
    getRecipeById
        (createRecipe ⟨some "Ramen", some "Soba, brouth, pork, eggs"⟩ ⟨[]⟩ "ts0").2
        "1" =
      .ok (some ⟨1, "Ramen", "Soba, brouth, pork, eggs", "ts0", "ts0"⟩) :=
  create_then_get_returns_created
    ⟨some "Ramen", some "Soba, brouth, pork, eggs"⟩ ⟨[]⟩ "ts0"
    ⟨1, "Ramen", "Soba, brouth, pork, eggs", "ts0", "ts0"⟩ "1"
    (.fin ⟨1, 1⟩) rfl (by decide) (by decide)

/-- Claim C5: for every valid body, `CreateRecipe` returns the newly
persisted record in full — the caller's `name` and `ingredience` together
with the storage-assigned id and both storage-defaulted timestamps — and
that record is exactly the row appended to the table. -/
theorem createRecipe_returns_full_record :
    ∀ (n i : String) (st : RecipesTable) (now : String),
      createRecipe ⟨some n, some i⟩ st now =
        (.ok ⟨nextId st, n, i, now, now⟩,
         ⟨st.rows ++ [⟨nextId st, n, i, now, now⟩]⟩) := by
  intro n i st now
  rfl

/-- Claim C6: the insert that backs every create path assigns an id strictly
greater than every id in use — so it is fresh, distinctness of ids is
preserved, and two sequential creates produce strictly increasing ids — and
the inserted row carries the caller's `name` and `ingredience` with the
storage-assigned id and storage-defaulted timestamps, so the caller never
supplies `id`, `createdAt` or `updatedAt`. -/
theorem recipe_id_invariants :
    (∀ (st : RecipesTable) (n i now : String),
        (insertRecipe st n i now).1.id ∉ st.rows.map Recipe.id) ∧
    (∀ (st : RecipesTable) (n i now : String),
        (st.rows.map Recipe.id).Nodup →
        ((insertRecipe st n i now).2.rows.map Recipe.id).Nodup) ∧
    (∀ (st : RecipesTable) (n1 i1 t1 n2 i2 t2 : String),
        (insertRecipe st n1 i1 t1).1.id <
          (insertRecipe (insertRecipe st n1 i1 t1).2 n2 i2 t2).1.id) ∧
    (∀ (st : RecipesTable) (n i now : String),
        (insertRecipe st n i now).1 = ⟨nextId st, n, i, now, now⟩) := by
  have hfresh : ∀ (st : RecipesTable) (n i now : String),
      (insertRecipe st n i now).1.id ∉ st.rows.map Recipe.id := by
    intro st n i now hmem
    obtain ⟨r, hr, hid⟩ := List.mem_map.mp hmem
    have hlt : r.id < nextId st := mem_id_lt_nextId st r hr
    rw [hid] at hlt
    exact Nat.lt_irrefl _ hlt
  refine ⟨hfresh, ?_, ?_, fun st n i now => rfl⟩
  · intro st n i now hnd
    have hrows : (insertRecipe st n i now).2.rows =
        st.rows ++ [(insertRecipe st n i now).1] := rfl
    rw [hrows, List.map_append, List.map_singleton]
    rw [List.nodup_append]
    refine ⟨hnd, List.nodup_singleton _, ?_⟩
    intro a ha hb
    rw [List.mem_singleton] at hb
    subst hb
    exact hfresh st n i now ha
  · intro st n1 i1 t1 n2 i2 t2
    have hmem : (insertRecipe st n1 i1 t1).1 ∈ (insertRecipe st n1 i1 t1).2.rows := by
      show (insertRecipe st n1 i1 t1).1 ∈ st.rows ++ [(insertRecipe st n1 i1 t1).1]
      exact List.mem_append_right _ (List.mem_singleton_self _)
    exact mem_id_lt_nextId (insertRecipe st n1 i1 t1).2 _ hmem

/-- Claim C6, witness: after the first insert into the empty table the id
multiset `[1]` is duplicate-free, by the preservation part of the theorem. -/
theorem recipe_id_invariants_witness :
    ((insertRecipe ⟨[]⟩ "Ramen" "Soba, brouth, pork, eggs" "ts0").2.rows.map
        Recipe.id).Nodup :=
  recipe_id_invariants.2.1 ⟨[]⟩ "Ramen" "Soba, brouth, pork, eggs" "ts0"
    (by decide)

/-- Claim C7: `ListRecipes` takes no input beyond the storage state, returns
every persisted row, and on empty storage returns the empty sequence rather
than an error; the embedded handler is total and never produces a failure of
its own. -/
theorem listRecipes_returns_all_rows :
    (∀ st : RecipesTable, getRecipes st = .ok st.rows) ∧
    getRecipes ⟨[]⟩ = .ok ([] : List Recipe) :=
  ⟨fun _ => rfl, rfl⟩

/-- Claim C8: every successful `CreateRecipe` appends exactly its returned
row to the table, leaving every previously persisted row in place and
unchanged, and has no other effect on storage. -/
theorem createRecipe_adds_exactly_one_row :
    ∀ (input : NewRecipeInput) (st : RecipesTable) (now : String) (r : Recipe),
      (createRecipe input st now).1 = .ok r →
      (createRecipe input st now).2.rows = st.rows ++ [r] := by
  intro input st now r h1
  obtain ⟨nm, ing⟩ := input
  cases nm with
  | none => exact absurd h1 (by simp [createRecipe, validateNewRecipe])
  | some n =>
    cases ing with
    | none => exact absurd h1 (by simp [createRecipe, validateNewRecipe])
    | some i =>
      have hr : (insertRecipe st n i now).1 = r := by
        have h1' : (createRecipe ⟨some n, some i⟩ st now).1 =
            .ok (insertRecipe st n i now).1 := rfl
        rw [h1'] at h1
        exact Except.ok.inj h1
      show st.rows ++ [(insertRecipe st n i now).1] = st.rows ++ [r]
      rw [hr]

/-- Claim C8, witness: the frame theorem applied to a concrete create over a
one-row table. -/
theorem createRecipe_adds_exactly_one_row_witness :
    (createRecipe ⟨some "Udon", some "Wheat noodles, dashi"⟩
        ⟨[⟨1, "Ramen", "Soba, brouth, pork, eggs", "ts0", "ts0"⟩]⟩ "ts1").2.rows =
      [⟨1, "Ramen", "Soba, brouth, pork, eggs", "ts0", "ts0"⟩] ++
        [⟨2, "Udon", "Wheat noodles, dashi", "ts1", "ts1"⟩] :=
  createRecipe_adds_exactly_one_row ⟨some "Udon", some "Wheat noodles, dashi"⟩
    ⟨[⟨1, "Ramen", "Soba, brouth, pork, eggs", "ts0", "ts0"⟩]⟩ "ts1"
    ⟨2, "Udon", "Wheat noodles, dashi", "ts1", "ts1"⟩ rfl

/-- Claim C9: the `POST /add-recipe` form path performs no schema check of
its own: empty fields are inserted as given (one row persisted, no
`ValidationError`), and every outcome of the handler is either success or the
storage layer's own `NOT NULL` violation for a missing field — never a
pre-storage validation rejection. -/
theorem addRecipe_bypasses_schema_checks :
    (∀ (st : RecipesTable) (now : String),
        addRecipe (some "") (some "") st now =
          (.ok (), ⟨st.rows ++ [⟨nextId st, "", "", now, now⟩]⟩)) ∧
    (∀ (nm ing : Option String) (st : RecipesTable) (now : String),
        (addRecipe nm ing st now).1 = .ok () ∨
        (addRecipe nm ing st now).1 = .error .notNullViolation) := by
  constructor
  · intro st now
    rfl
  · intro nm ing st now
    cases nm with
    | none => cases ing <;> exact Or.inr rfl
    | some n =>
      cases ing with
      | none => exact Or.inr rfl
      | some i => exact Or.inl rfl

/-- Claim C10: `RecipeSchema` — the declared response schema of all three
JSON routes — omits the persisted `createdAt` and `updatedAt` columns and
constrains `ingredience` with an email format check that ordinary ingredient
text fails: the check accepts a genuine email address, and every persisted
record whose `ingredience` is the schema's own example value
`"Soba, brouth, pork, eggs"` is rejected by it. -/
theorem recipeSchema_rejects_persisted_records :
    ("createdAt" ∉ recipeSchemaFields ∧ "updatedAt" ∉ recipeSchemaFields ∧
      "createdAt" ∈ recipeRecordFields ∧ "updatedAt" ∈ recipeRecordFields) ∧
    zodEmailCheck "test@example.com" = true ∧
    (∀ r : Recipe, r.ingredience = "Soba, brouth, pork, eggs" →
        recipeSchemaAccepts r = false) := by
  refine ⟨by decide, by decide, ?_⟩
  intro r h
  unfold recipeSchemaAccepts
  rw [h]
  decide

/-- Claim C10, witness: the response-schema theorem applied to a persisted
record carrying the schema's own example ingredient text. -/
theorem recipeSchema_rejects_persisted_records_witness :
    recipeSchemaAccepts ⟨1, "Ramen", "Soba, brouth, pork, eggs", "ts0", "ts0"⟩ =
      false :=
  recipeSchema_rejects_persisted_records.2.2
    ⟨1, "Ramen", "Soba, brouth, pork, eggs", "ts0", "ts0"⟩ rfl
